import Mathlib

/-!
Verification development for the email-triage backend (backend.py).

The Python source is shallowly embedded: JSON values are modelled by the
inductive type `Json`, pydantic models by Lean structures together with
validation functions, and the external collaborators (the Gemini batch
service, the json library parser, the uuid generator, the clock and the
file system) by explicit parameters.  Machine behaviour that the source
reaches only through a raised-and-caught exception is modelled by
`Option`/`Except` failure values.
-/

namespace Backend

/-- JSON values, as produced by the external json library.  Numbers are
modelled as integers, which covers every numeric field the backend reads. -/
inductive Json where
  | null
  | bool (b : Bool)
  | num (n : Int)
  | str (s : String)
  | arr (elems : List Json)
  | obj (fields : List (String × Json))

/-- First-match association lookup, the model of a Python dict read (the
dicts built by the backend have pairwise distinct keys). -/
def lookupStr : List (String × Json) → String → Option Json
  | [], _ => none
  | (k, v) :: rest, key => if k = key then some v else lookupStr rest key

/-- Model of `d[k]` presence: `some v` when the key occurs, `none` when it
is absent (unlike `d.get`, which conflates absence with `None`). -/
def Json.find? : Json → String → Option Json
  | .obj kvs, k => lookupStr kvs k
  | _, _ => none

/-- Model of the Python `d.get(k, default)` read on a dict value. -/
def Json.getD (j : Json) (k : String) (d : Json) : Json :=
  (j.find? k).getD d

/-- Python truthiness of a JSON value (`None`, `False`, `0`, empty string,
empty list and empty dict are falsy). -/
def pyTruthy : Json → Bool
  | .null => false
  | .bool b => b
  | .num n => n != 0
  | .str s => s ≠ ""
  | .arr xs => !xs.isEmpty
  | .obj kvs => !kvs.isEmpty

/-- Pydantic v1 validation of a required `str` field: strings are accepted
and numbers are coerced via `str()`; everything else (including `None`) is
a validation error.  (The lenient coercions from `bytes`/`Decimal` have no
JSON counterpart and are not modelled.) -/
def pyStr? : Json → Option String
  | .str s => some s
  | .num n => some (toString n)
  | _ => none

/-- Pydantic v1 validation of an `Optional[str]` field. -/
def pyOptStr? : Json → Option (Option String)
  | .null => some none
  | v => (pyStr? v).map some

/-- Pydantic v1 validation of an `int` field (numbers only; the string
coercions are not modelled). -/
def pyInt? : Json → Option Int
  | .num n => some n
  | _ => none

/-- Pydantic v1 validation of a `bool` field (booleans, plus the 0/1
integer coercion; the string coercions are not modelled). -/
def pyBool? : Json → Option Bool
  | .bool b => some b
  | .num 0 => some false
  | .num 1 => some true
  | _ => none

/-! ### Python string primitives used by the source -/

/-- Python whitespace, as recognised by `str.strip` and `str.splitlines`
on the characters the backend can meet. -/
def pySpace (c : Char) : Bool :=
  c = ' ' || c = '\t' || c = '\n' || c = '\r' || c = '\x0b' || c = '\x0c'

/-- Model of the Python `str.strip()` method. -/
def pyStrip (s : String) : String :=
  ⟨((s.data.dropWhile pySpace).reverse.dropWhile pySpace).reverse⟩

/-- Fuel-driven core of `str.replace`: leftmost non-overlapping rewriting.
The fuel is instantiated with the length of the subject string, which
suffices for every non-empty pattern. -/
def pyReplaceCore : Nat → List Char → List Char → List Char → List Char
  | 0, s, _, _ => s
  | fuel + 1, s, pat, rep =>
    match s with
    | [] => []
    | c :: rest =>
      if pat ≠ [] ∧ pat.isPrefixOf (c :: rest) then
        rep ++ pyReplaceCore fuel ((c :: rest).drop pat.length) pat rep
      else
        c :: pyReplaceCore fuel rest pat rep

/-- Model of the Python `str.replace(pat, rep)` method (the source only
uses non-empty patterns). -/
def pyReplace (s pat rep : String) : String :=
  ⟨pyReplaceCore s.data.length s.data pat.data rep.data⟩

/-- The brace-escaping step of the prompt builder (backend.py line 280):
`s.replace("{", "{{").replace("}", "}}")`. -/
def escapeBraces (s : String) : String :=
  pyReplace (pyReplace s "\x7b" "\x7b\x7b") "\x7d" "\x7d\x7d"

/-- Modelled from the spec wording: doubling every curly-brace character
of a string, used to state the Prompt Builder escaping contract
independently of the `str.replace` mechanism. -/
def doubleBraces (s : String) : String :=
  ⟨s.data.flatMap fun c => if c = '\x7b' ∨ c = '\x7d' then [c, c] else [c]⟩

/-! ### Domain records (the pydantic models of backend.py lines 59-87) -/

/-- The `Todo` pydantic model (backend.py lines 59-64). -/
structure Todo where
  title : String
  notes : Option String := none
  due_date : Option String := none
  priority : Int := 5
  isCompleted : Bool := false
deriving DecidableEq

/-- The `Event` pydantic model (backend.py lines 66-72). -/
structure Event where
  title : String
  notes : Option String := none
  location : Option String := some "TBD"
  start_date : Option String := none
  end_date : Option String := none
  all_day : Bool := false
deriving DecidableEq

/-- The `Email` pydantic model (backend.py lines 74-84). -/
structure Email where
  id : String := ""
  from_addr : String
  subject : String
  date : String
  preview : String
  body_html : String
  summary : Option String := none
  category : Option String := none
  todos : List Todo := []
  events : List Event := []
deriving DecidableEq

/-- Validation performed by `Todo(**t)`: `t` must be a dict, `title` is a
required string field, the remaining fields are optional with the model
defaults; unknown keys are ignored (pydantic v1 default config). -/
def Todo.ofJson : Json → Option Todo
  | j@(.obj _) => do
    let title ← pyStr? (j.getD "title" .null)
    let notes ← pyOptStr? (j.getD "notes" .null)
    let due_date ← pyOptStr? (j.getD "due_date" .null)
    let priority ← match j.find? "priority" with
      | none => some (5 : Int)
      | some v => pyInt? v
    let isCompleted ← match j.find? "isCompleted" with
      | none => some false
      | some v => pyBool? v
    some { title := title, notes := notes, due_date := due_date,
           priority := priority, isCompleted := isCompleted }
  | _ => none

/-- Validation performed by `Event(**e)`: `title` is the only required
field; `start_date` is optional and defaults to `None`; `location`
defaults to the string "TBD" when the key is absent. -/
def Event.ofJson : Json → Option Event
  | j@(.obj _) => do
    let title ← pyStr? (j.getD "title" .null)
    let notes ← pyOptStr? (j.getD "notes" .null)
    let location ← match j.find? "location" with
      | none => some (some "TBD")
      | some v => pyOptStr? v
    let start_date ← pyOptStr? (j.getD "start_date" .null)
    let end_date ← pyOptStr? (j.getD "end_date" .null)
    let all_day ← match j.find? "all_day" with
      | none => some false
      | some v => pyBool? v
    some { title := title, notes := notes, location := location,
           start_date := start_date, end_date := end_date, all_day := all_day }
  | _ => none

/-- Element-wise validation of a list, failing as soon as one element
fails (the behaviour of a raising list comprehension and of pydantic
list-field validation). -/
def optMapM {α : Type} (f : Json → Option α) : List Json → Option (List α)
  | [] => some []
  | x :: xs => do
    let y ← f x
    let ys ← optMapM f xs
    some (y :: ys)

/-- Model of a Python list comprehension `[f(x) for x in v]` over a JSON
value: iterating a JSON array visits its elements; iterating an empty
dict or empty string yields nothing; any other value either is not
iterable or yields non-dict items, so the comprehension raises (which the
per-line handler of the source turns into a skip). -/
def pyIterList {α : Type} (f : Json → Option α) : Json → Option (List α)
  | .arr xs => optMapM f xs
  | .obj [] => some []
  | .str "" => some []
  | _ => none

/-- An object-shaped JSON value; any other shape makes a subsequent
`.get` attribute access raise. -/
def asObj : Json → Option Json
  | j@(.obj _) => some j
  | _ => none

/-- A string-shaped JSON value; any other shape makes a subsequent
`.replace` attribute access raise. -/
def asStr : Json → Option String
  | .str s => some s
  | _ => none

/-! ### Prompt Builder (backend.py lines 224-303)

`prompt_template.format(subject=..., body=...)` substitutes the two
placeholders and rewrites the doubled braces of the template literal to
single braces.  The three constants below are the rendered text of the
template around the two placeholders, so that
`promptPre ++ subject ++ promptMid ++ body ++ promptSuf` is exactly the
string `.format` returns. -/

def promptPre : String :=
  "\nAnalyze the following email content and extract:\n" ++
  "1. A brief summary (1-2 sentences)\n" ++
  "2. Any specific Tasks (Todos) and Calendar Events\n\n" ++
  "Output strictly in JSON format matching these exact schemas:\n\n" ++
  "\x7b\n" ++
  "  \"summary\": \"Brief 1-2 sentence summary of the email\",\n" ++
  "  \"todos\": [\x7b\n" ++
  "      \"title\": \"short task title\",\n" ++
  "      \"notes\": \"detailed task description/notes\",\n" ++
  "      \"due_date\": \"YYYY-MM-DDTHH:MM:SSZ (ISO 8601 format, null if not found)\",\n" ++
  "      \"priority\": 5\n" ++
  "  \x7d],\n" ++
  "  \"events\": [\x7b\n" ++
  "      \"title\": \"event title (REQUIRED)\",\n" ++
  "      \"notes\": \"event description/details\",\n" ++
  "      \"location\": \"event location (use \x27TBD\x27 if not specified, \x27Online\x27 for virtual events, null if truly unknown)\",\n" ++
  "      \"start_date\": \"YYYY-MM-DDTHH:MM:SSZ (ISO 8601 format, REQUIRED - do not include if no date found)\",\n" ++
  "      \"end_date\": \"YYYY-MM-DDTHH:MM:SSZ (ISO 8601 format, optional - null if not specified)\",\n" ++
  "      \"all_day\": false\n" ++
  "  \x7d]\n" ++
  "\x7d\n\n" ++
  "IMPORTANT:\n" ++
  "- Summary should be concise and capture the main point of the email\n" ++
  "- Use ISO 8601 date format with timezone (e.g., \"2024-11-25T14:00:00Z\")\n" ++
  "- ONLY create an event if BOTH title AND start_date are clearly present in the email\n" ++
  "- end_date is optional - if not specified, set to null (system will default to 1 hour duration)\n" ++
  "- For location, prefer \x27TBD\x27 over null\n" ++
  "- Priority for todos: 1=high, 5=medium (default), 9=low\n" ++
  "- all_day should be true only for full-day events (no specific times mentioned)\n" ++
  "- If there are no todos or events, return empty arrays\n\n" ++
  "Email Subject: "

def promptMid : String := "\nEmail Body: "

def promptSuf : String := "\n"

/-- The result of `prompt_template.format(subject=s, body=b)`. -/
def renderPrompt (subject body : String) : String :=
  promptPre ++ subject ++ promptMid ++ body ++ promptSuf

/-- One iteration of the request-building loop (backend.py lines 263-303)
for the email at index `idx`: returns the correlation key `req-idx`
together with the rendered prompt, or `none` when the iteration raises a
`TypeError`/`AttributeError` (non-dict `body` value, or a non-string
value reaching `.replace`), which aborts the whole refresh cycle since
this loop runs before the `try` block. -/
def buildInput? (idx : Nat) (email : Json) : Option (String × String) := do
  let bodyObj ← asObj (email.getD "body" (.obj []))
  let contentJ := bodyObj.getD "content" (.str "")
  let chosen := if pyTruthy contentJ then contentJ else email.getD "bodyPreview" (.str "")
  let contentText ← asStr chosen
  let subjectText ← asStr (email.getD "subject" (.str ""))
  some ("req-" ++ Nat.repr idx,
        renderPrompt (escapeBraces subjectText) (escapeBraces contentText))

/-- The request-building loop: produces the `batch_inputs` correlation
keyed request list and the `email_map` dict, starting at index `i`. -/
def buildGo : Nat → List Json → Option (List (String × String) × List (String × Json))
  | _, [] => some ([], [])
  | i, e :: es => do
    let inp ← buildInput? i e
    let (ins, m) ← buildGo (i + 1) es
    some (inp :: ins, (inp.1, e) :: m)

/-- `batch_inputs` and `email_map` as built by backend.py lines 263-303. -/
def buildInputsAndMap? (emails : List Json) :
    Option (List (String × String) × List (String × Json)) :=
  buildGo 0 emails

/-! ### Batch Job Coordinator: demultiplexing (backend.py lines 414-493)

The external `json.loads` parser is passed in as a function
`loads : String → Option Json` (`none` models a raised `JSONDecodeError`).
Each stage below collapses every path on which the Python line handler
raises (and the surrounding `try`/`except` skips the line) to `none`. -/

/-- Structural parse of one output line: the empty-after-strip skip
(line 431), `res = json.loads(line)` (line 435), and the requirement
that `res` support `.get` (lines 437-441). -/
def structParse (loads : String → Option Json) (line : String) : Option Json :=
  if pyStrip line = "" then none
  else match loads line with
    | some j => asObj j
    | none => none

/-- Correlation-key extraction (lines 437-439): `custom_id` with a
truthiness fallback to `key`. -/
def extractKey (res : Json) : Json :=
  let k1 := res.getD "custom_id" .null
  if pyTruthy k1 then k1 else res.getD "key" .null

/-- The part-scanning loop (lines 449-453): the `text` value of the first
part whose `thought` field is falsy; `none` when the loop either finds no
such part (`text` stays `None`) or raises on a non-dict part. -/
def firstTextPart : List Json → Option Json
  | [] => none
  | p :: rest =>
    match p with
    | .obj _ =>
      if pyTruthy (p.getD "thought" (.bool false)) then firstTextPart rest
      else some (p.getD "text" (.str ""))
    | _ => none

/-- Candidate navigation (lines 445-453): `response["candidates"][0]
["content"]["parts"]`, with the Python truthiness guard on `candidates`
and a raise (hence skip) on every shape mismatch. -/
def candidateText (responseData : Json) : Option Json :=
  match responseData.getD "candidates" (.arr []) with
  | .arr (c0 :: _) =>
    match c0 with
    | .obj _ =>
      match c0.getD "content" (.obj []) with
      | .obj contentKvs =>
        match (Json.obj contentKvs).getD "parts" (.arr []) with
        | .arr parts => firstTextPart parts
        | _ => none
      | _ => none
    | _ => none
  | _ => none

/-- Markdown-fence cleanup (line 460):
`text.replace("```json", "").replace("```", "").strip()`. -/
def cleanText (s : String) : String :=
  pyStrip (pyReplace (pyReplace s "```json" "") "```" "")

/-- `email_map.get(key)` where `key` is an arbitrary JSON value: only a
string key can hit the map (its keys are the `req-i` strings); unhashable
keys raise and any other hashable key misses. -/
def mapGet (m : List (String × Json)) : Json → Option Json
  | .str s => lookupStr m s
  | _ => none

/-- Construction of the `Email` record from the parsed extraction JSON
and the original raw email (lines 472-486).  The generated `uuid4` id is
supplied later, so the result is a function of the fresh id. -/
def mkProcessedEmail (parsed orig : Json) : Option (String → Email) := do
  let fromVal := orig.getD "from" (.obj [])
  let eaVal ← match fromVal with
    | .obj _ => some (fromVal.getD "emailAddress" (.obj []))
    | _ => none
  let from_addr ← match eaVal with
    | .obj _ => pyStr? (eaVal.getD "address" (.str "Unknown"))
    | _ => none
  let subject ← pyStr? (orig.getD "subject" (.str "No Subject"))
  let date ← pyStr? (orig.getD "receivedDateTime" (.str ""))
  let preview ← pyStr? (orig.getD "bodyPreview" (.str ""))
  let body_html ← match orig.getD "body" (.obj []) with
    | .obj bodyKvs => pyStr? ((Json.obj bodyKvs).getD "content" (.str ""))
    | _ => none
  let summary ← pyOptStr? (parsed.getD "summary" .null)
  let category ← pyOptStr? (parsed.getD "category" .null)
  let todos ← pyIterList Todo.ofJson (parsed.getD "todos" (.arr []))
  let events ← pyIterList Event.ofJson (parsed.getD "events" (.arr []))
  some fun fid =>
    { id := fid, from_addr := from_addr, subject := subject, date := date,
      preview := preview, body_html := body_html, summary := summary,
      category := category, todos := todos, events := events }

/-- The whole per-line handler (lines 429-489), returning `some` exactly
when the line appends a processed email and `none` when it is skipped
(blank line, parse failure, falsy key or response, missing answer text,
empty-object answer, schema failure, unknown correlation key, or any
raised-and-caught exception). -/
def processLineCore (loads : String → Option Json)
    (email_map : List (String × Json)) (line : String) :
    Option (String → Email) := do
  let res ← structParse loads line
  let key := extractKey res
  let responseData := res.getD "response" .null
  if pyTruthy key && pyTruthy responseData then do
    let rdo ← asObj responseData
    let t ← candidateText rdo
    if pyTruthy t then
      match t with
      | .str s0 =>
        let text := cleanText s0
        if text = "\x7b\x7d" ∨ text = "" then none
        else do
          let parsed ← match loads text with
            | some j => asObj j
            | none => none
          let orig ← mapGet email_map key
          if pyTruthy orig then
            match orig with
            | .obj _ => mkProcessedEmail parsed orig
            | _ => none
          else none
      | _ => none
    else none
  else none

/-- The correlation key a line would be looked up under, when it has a
usable (truthy, string) one. -/
def lineKey? (loads : String → Option Json) (line : String) : Option String :=
  match structParse loads line with
  | some res =>
    match extractKey res with
    | .str s => if s = "" then none else some s
    | _ => none
  | none => none

/-- The demultiplexing loop over the downloaded output lines.  `ids k` is
the `uuid4` value generated for the k-th appended record. -/
def demuxAux (loads : String → Option Json) (email_map : List (String × Json))
    (ids : Nat → String) : Nat → List String → List Email
  | _, [] => []
  | k, l :: ls =>
    match processLineCore loads email_map l with
    | some f => f (ids k) :: demuxAux loads email_map ids (k + 1) ls
    | none => demuxAux loads email_map ids k ls

/-- Demultiplexing of the full output stream (lines 429-489). -/
def demux (loads : String → Option Json) (email_map : List (String × Json))
    (ids : Nat → String) (lines : List String) : List Email :=
  demuxAux loads email_map ids 0 lines

/-- Outcome of the external batch job, as observed through the `try`
block of lines 322-497: an exception while uploading the input file or
creating the job; a `JOB_STATE_FAILED`/`JOB_STATE_CANCELLED` terminal
state (which raises at line 344); or success, with the downloaded output
stream split into lines when the job status carries an output file
reference (any download/decode exception is also covered by
`submitFail`, since every raised exception lands in the same handler). -/
inductive JobResult where
  | submitFail
  | failed
  | cancelled
  | succeeded (output : Option (List String))

/-- `process_with_gemini_batch` (backend.py lines 214-501).  An empty
input returns `[]` before any external call.  A `TypeError` while
building the prompts (before the `try` block) propagates as `.error`.
Every failure inside the `try` block — submission failure or a
failed/cancelled terminal job state — is caught by the `except` at line
495 and becomes `return []`.  A succeeded job without an output file
reference logs a warning and returns `[]`; with one, the output lines are
demultiplexed. -/
def process_with_gemini_batch (loads : String → Option Json)
    (ids : Nat → String) (job : JobResult) (emails_data : List Json) :
    Except String (List Email) :=
  match emails_data with
  | [] => .ok []
  | _ =>
    match buildInputsAndMap? emails_data with
    | none => .error "TypeError while preparing batch requests"
    | some (_, email_map) =>
      match job with
      | .submitFail => .ok []
      | .failed => .ok []
      | .cancelled => .ok []
      | .succeeded none => .ok []
      | .succeeded (some lines) => .ok (demux loads email_map ids lines)

/-! ### Persistence (backend.py lines 503-542)

The file system is modelled by the JSON document a file holds
(`Option Json`, `none` when the file does not exist); the textual
round-trip `json.dumps`/`json.load` of the external json library is the
identity on documents. -/

/-- Pydantic v1 validation of a `List[Todo]`-style field: the value must
be a JSON array and every element must validate. -/
def pydList {α : Type} (f : Json → Option α) : Json → Option (List α)
  | .arr xs => optMapM f xs
  | _ => none

def optStrJson : Option String → Json
  | none => .null
  | some s => .str s

/-- `Todo.dict()` (pydantic v1 serialisation). -/
def Todo.toJson (t : Todo) : Json :=
  .obj [("title", .str t.title), ("notes", optStrJson t.notes),
        ("due_date", optStrJson t.due_date), ("priority", .num t.priority),
        ("isCompleted", .bool t.isCompleted)]

/-- `Event.dict()` (pydantic v1 serialisation). -/
def Event.toJson (e : Event) : Json :=
  .obj [("title", .str e.title), ("notes", optStrJson e.notes),
        ("location", optStrJson e.location), ("start_date", optStrJson e.start_date),
        ("end_date", optStrJson e.end_date), ("all_day", .bool e.all_day)]

/-- `Email.dict()` (pydantic v1 serialisation, nested models as dicts). -/
def Email.toJson (e : Email) : Json :=
  .obj [("id", .str e.id), ("from_addr", .str e.from_addr),
        ("subject", .str e.subject), ("date", .str e.date),
        ("preview", .str e.preview), ("body_html", .str e.body_html),
        ("summary", optStrJson e.summary), ("category", optStrJson e.category),
        ("todos", .arr (e.todos.map Todo.toJson)),
        ("events", .arr (e.events.map Event.toJson))]

/-- Validation performed by `Email(**item)` when loading: `item` must be
a dict; `from_addr`, `subject`, `date`, `preview` and `body_html` are
required string fields, `id` defaults to the empty string, `summary` and
`category` default to `None`, `todos` and `events` default to `[]`. -/
def Email.ofJson : Json → Option Email
  | j@(.obj _) => do
    let id ← match j.find? "id" with
      | none => some ""
      | some v => pyStr? v
    let from_addr ← pyStr? (j.getD "from_addr" .null)
    let subject ← pyStr? (j.getD "subject" .null)
    let date ← pyStr? (j.getD "date" .null)
    let preview ← pyStr? (j.getD "preview" .null)
    let body_html ← pyStr? (j.getD "body_html" .null)
    let summary ← pyOptStr? (j.getD "summary" .null)
    let category ← pyOptStr? (j.getD "category" .null)
    let todos ← match j.find? "todos" with
      | none => some []
      | some v => pydList Todo.ofJson v
    let events ← match j.find? "events" with
      | none => some []
      | some v => pydList Event.ofJson v
    some { id := id, from_addr := from_addr, subject := subject, date := date,
           preview := preview, body_html := body_html, summary := summary,
           category := category, todos := todos, events := events }
  | _ => none

/-- `save_processed_emails` (lines 515-517): the JSON document written to
`processed_emails.json`. -/
def save_processed_emails (emails : List Email) : Json :=
  .arr (emails.map Email.toJson)

/-- `load_processed_emails` (lines 519-524): a missing file yields `[]`;
otherwise the document is parsed and each item validated, any validation
failure raising out of the function.  (Iterating a non-list document:
an empty dict or empty string yields the empty comprehension, anything
else raises.) -/
def load_processed_emails (file : Option Json) : Except String (List Email) :=
  match file with
  | none => .ok []
  | some doc =>
    match doc with
    | .arr items =>
      match optMapM Email.ofJson items with
      | some es => .ok es
      | none => .error "ValidationError while loading processed emails"
    | .obj [] => .ok []
    | .str "" => .ok []
    | _ => .error "TypeError while loading processed emails"

/-- `GET /processed-emails` (lines 602-604). -/
def get_processed_emails (file : Option Json) : Except String (List Email) :=
  load_processed_emails file

/-- `GET /emails` (lines 568-571). -/
def get_emails (file : Option Json) : Except String (List Email) :=
  load_processed_emails file

/-! ### Refresh Orchestrator (backend.py lines 507-600) -/

/-- The global `batch_status` record. -/
structure BatchStatus where
  status : String
  message : String
  last_updated : Option String
  count : Nat
deriving DecidableEq

/-- `update_batch_status` (lines 526-535): overwrites every field, with
`now` the `datetime.now().isoformat()` timestamp. -/
def update_batch_status (status message : String) (count : Nat) (now : String) :
    BatchStatus :=
  { status := status, message := message, last_updated := some now, count := count }

/-- The environment one run of the background pipeline interacts with:
the Graph fetch result (`.error` models the raised authentication
failure), the batch job outcome, the external json parser, the uuid
stream, whether `save_processed_emails` raises, and the clock. -/
structure RefreshEnv where
  fetchResult : Except String (List Json)
  job : JobResult
  loads : String → Option Json
  ids : Nat → String
  saveExn : Option String
  now : String

/-- What one run of the pipeline leaves behind: the final status record
and the persisted collection (`none` when the save was never executed). -/
structure RefreshOutcome where
  finalStatus : BatchStatus
  saved : Option (List Email)
deriving DecidableEq

/-- `background_email_refresh` (lines 544-566): fetch, process, save,
then set `completed` with the result count; any exception anywhere in
the chain sets `error` with a descriptive message instead. -/
def background_email_refresh (env : RefreshEnv) : RefreshOutcome :=
  match env.fetchResult with
  | .error e =>
    ⟨update_batch_status "error" ("Error during refresh: " ++ e) 0 env.now, none⟩
  | .ok raw =>
    match process_with_gemini_batch env.loads env.ids env.job raw with
    | .error e =>
      ⟨update_batch_status "error" ("Error during refresh: " ++ e) 0 env.now, none⟩
    | .ok processed =>
      match env.saveExn with
      | some e =>
        ⟨update_batch_status "error" ("Error during refresh: " ++ e) 0 env.now, none⟩
      | none =>
        ⟨update_batch_status "completed" "Successfully processed emails"
           processed.length env.now, some processed⟩

/-- The body of `POST /refresh-emails`. -/
structure RefreshResponse where
  status : String
  message : String
  batch_status : BatchStatus
deriving DecidableEq

/-- `refresh_emails` (lines 573-595) as a function of the current status
record: the response returned to the client, and whether a new background
thread was started (when it was, the status record has just been set to
`fetching`). -/
def refresh_emails (cur : BatchStatus) (now : String) : RefreshResponse × Bool :=
  if cur.status = "fetching" ∨ cur.status = "processing" then
    ({ status := "already_running", message := "A refresh is already in progress",
       batch_status := cur }, false)
  else
    let st := update_batch_status "fetching" "Starting email refresh..." 0 now
    ({ status := "started", message := "Email refresh started in background",
       batch_status := st }, true)

/-! ### Interleaving model for the single-flight property (C4)

Requests and the status updates of a background pipeline are the atomic
steps of §5 of the specification (single-writer status record, atomic
field updates).  A pipeline is tracked by the last status update it
performed. -/

/-- Progress of one live background pipeline thread. -/
inductive PipePhase where
  | created
  | fetchPhase
  | processPhase
deriving DecidableEq

/-- Process-wide state: the shared status record and the live pipeline
threads. -/
structure SysState where
  statusRec : BatchStatus
  pipes : List PipePhase
deriving DecidableEq

/-- Fresh process state: `batch_status` starts as `idle` (line 508) and
no background thread exists. -/
def initState : SysState :=
  ⟨{ status := "idle", message := "", last_updated := none, count := 0 }, []⟩

/-- Atomic transitions: a `POST /refresh-emails` request (accepted or
rejected according to `refresh_emails`), and the successive
`update_batch_status` calls of a live `background_email_refresh` thread —
`fetching` (line 548), `processing` (line 554), then the terminal
`completed` or `error` update at which the thread exits; a fetch
exception jumps from the `fetching` update straight to the terminal
`error` update. -/
inductive SysStep : SysState → SysState → Prop where
  | requestStarted (s : SysState) (now : String)
      (h : (refresh_emails s.statusRec now).2 = true) :
      SysStep s ⟨(refresh_emails s.statusRec now).1.batch_status,
                 s.pipes ++ [.created]⟩
  | requestRejected (s : SysState) (now : String)
      (h : (refresh_emails s.statusRec now).2 = false) :
      SysStep s s
  | bgFetching (s : SysState) (now : String) (l r : List PipePhase)
      (h : s.pipes = l ++ .created :: r) :
      SysStep s ⟨update_batch_status "fetching"
                   "Fetching emails from Microsoft Graph..." 0 now,
                 l ++ .fetchPhase :: r⟩
  | bgProcessing (s : SysState) (now msg : String) (l r : List PipePhase)
      (h : s.pipes = l ++ .fetchPhase :: r) :
      SysStep s ⟨update_batch_status "processing" msg 0 now,
                 l ++ .processPhase :: r⟩
  | bgFetchError (s : SysState) (now msg : String) (l r : List PipePhase)
      (h : s.pipes = l ++ .fetchPhase :: r) :
      SysStep s ⟨update_batch_status "error" msg 0 now, l ++ r⟩
  | bgFinish (s : SysState) (now st msg : String) (c : Nat)
      (l r : List PipePhase) (hst : st = "completed" ∨ st = "error")
      (h : s.pipes = l ++ .processPhase :: r) :
      SysStep s ⟨update_batch_status st msg c now, l ++ r⟩

/-- States reachable from process start. -/
inductive Reach : SysState → Prop where
  | init : Reach initState
  | step {s t : SysState} : Reach s → SysStep s t → Reach t

/-! ### Auxiliary lemmas -/

theorem toDigitsCore_eq (fuel n : Nat) (ds : List Char) (h : n < fuel) :
    Nat.toDigitsCore 10 fuel n ds
      = (if n = 0 then ['0'] else ((Nat.digits 10 n).map Nat.digitChar).reverse) ++ ds := by
  induction fuel generalizing n ds with
  | zero => omega
  | succ fuel ih =>
    rw [Nat.toDigitsCore]
    by_cases h0 : n / 10 = 0
    · have hn : n < 10 := by omega
      simp only [h0, if_true]
      by_cases hz : n = 0
      · subst hz; simp [Nat.digitChar]
      · have : Nat.digits 10 n = [n] := by
          rw [Nat.digits_def' (by norm_num : (1 : Nat) < 10) (Nat.pos_of_ne_zero hz)]
          simp [Nat.mod_eq_of_lt hn, Nat.div_eq_of_lt hn]
        simp [hz, this, Nat.mod_eq_of_lt hn]
    · have hge : 10 ≤ n := by
        by_contra hlt
        exact h0 (Nat.div_eq_of_lt (by omega))
      have hlt : n / 10 < fuel := by
        have : n / 10 < n := Nat.div_lt_self (by omega) (by norm_num)
        omega
      simp only [h0, if_false]
      rw [ih (n / 10) _ hlt]
      have hd : Nat.digits 10 n = n % 10 :: Nat.digits 10 (n / 10) :=
        Nat.digits_def' (by norm_num) (by omega)
      simp [h0, hd, Nat.ne_of_gt (by omega : 0 < n)]

theorem repr_eq (n : Nat) :
    Nat.repr n
      = (if n = 0 then ['0'] else ((Nat.digits 10 n).map Nat.digitChar).reverse).asString := by
  rw [Nat.repr, Nat.toDigits, toDigitsCore_eq _ _ _ (Nat.lt_succ_self n)]
  simp

theorem digitChar_injOn :
    ∀ a, a < 10 → ∀ b, b < 10 → Nat.digitChar a = Nat.digitChar b → a = b := by
  decide

theorem mapDigitChar_inj : ∀ l1 l2 : List Nat, (∀ x ∈ l1, x < 10) → (∀ x ∈ l2, x < 10) →
    l1.map Nat.digitChar = l2.map Nat.digitChar → l1 = l2 := by
  intro l1
  induction l1 with
  | nil => intro l2 _ _ h; cases l2 <;> simp_all
  | cons a t ih =>
    intro l2 h1 h2 h
    cases l2 with
    | nil => simp_all
    | cons b t2 =>
      simp only [List.map_cons, List.cons.injEq] at h
      have ha := h1 a (List.mem_cons_self a t)
      have hb := h2 b (List.mem_cons_self b t2)
      have := digitChar_injOn a ha b hb h.1
      subst this
      have := ih t2 (fun x hx => h1 x (List.mem_cons_of_mem _ hx))
        (fun x hx => h2 x (List.mem_cons_of_mem _ hx)) h.2
      simp [this]

theorem digits_map_digitChar_ne_zero {b : Nat} (hb : b ≠ 0)
    (hmap : (Nat.digits 10 b).map Nat.digitChar = ['0']) : False := by
  have hb1 : Nat.digits 10 b = [0] := by
    cases hd : Nat.digits 10 b with
    | nil => rw [hd] at hmap; simp at hmap
    | cons x t =>
      rw [hd] at hmap
      cases t with
      | nil =>
        simp only [List.map_cons, List.map_nil] at hmap
        have hx : x < 10 := Nat.digits_lt_base (by norm_num)
          (by rw [hd]; exact List.mem_cons_self x [])
        have : x = 0 := digitChar_injOn x hx 0 (by norm_num) (by simpa using hmap)
        simp [this]
      | cons y t2 => simp at hmap
  have := Nat.ofDigits_digits 10 b
  rw [hb1] at this
  simp [Nat.ofDigits] at this
  exact hb this.symm

theorem Nat_repr_injective : Function.Injective Nat.repr := by
  intro a b h
  rw [repr_eq, repr_eq] at h
  have h' : (if a = 0 then ['0'] else ((Nat.digits 10 a).map Nat.digitChar).reverse)
      = (if b = 0 then ['0'] else ((Nat.digits 10 b).map Nat.digitChar).reverse) := by
    have := congrArg String.data h
    simpa [List.asString] using this
  by_cases ha : a = 0 <;> by_cases hb : b = 0
  · omega
  · exfalso
    simp only [ha, if_true, hb, if_false] at h'
    refine digits_map_digitChar_ne_zero hb ?_
    have := congrArg List.reverse h'
    simpa using this.symm
  · exfalso
    simp only [ha, if_false, hb, if_true] at h'
    refine digits_map_digitChar_ne_zero ha ?_
    have := congrArg List.reverse h'
    simpa using this
  · simp only [ha, if_false, hb, if_false] at h'
    have hmap : (Nat.digits 10 a).map Nat.digitChar = (Nat.digits 10 b).map Nat.digitChar := by
      have := congrArg List.reverse h'
      simpa using this
    have hdig : Nat.digits 10 a = Nat.digits 10 b :=
      mapDigitChar_inj _ _ (fun x hx => Nat.digits_lt_base (by norm_num) hx)
        (fun x hx => Nat.digits_lt_base (by norm_num) hx) hmap
    calc a = Nat.ofDigits 10 (Nat.digits 10 a) := (Nat.ofDigits_digits 10 a).symm
    _ = Nat.ofDigits 10 (Nat.digits 10 b) := by rw [hdig]
    _ = b := Nat.ofDigits_digits 10 b

theorem replaceCore_single (c : Char) (rep : List Char) :
    ∀ fuel s, s.length ≤ fuel →
      pyReplaceCore fuel s [c] rep = s.flatMap (fun x => if x = c then rep else [x]) := by
  intro fuel
  induction fuel with
  | zero =>
    intro s h
    have : s = [] := List.length_eq_zero.mp (by omega)
    subst this
    simp [pyReplaceCore]
  | succ fuel ih =>
    intro s h
    cases s with
    | nil => simp [pyReplaceCore]
    | cons x rest =>
      have hlen : rest.length ≤ fuel := by
        simp only [List.length_cons] at h; omega
      rw [pyReplaceCore]
      by_cases hc : c = x
      · subst hc
        simp only [List.isPrefixOf, Bool.and_true, beq_self_eq_true, ne_eq,
          List.cons_ne_nil, not_false_eq_true, true_and, if_true,
          List.length_singleton, List.drop_succ_cons, List.drop_zero,
          List.flatMap_cons, ih rest hlen, if_pos rfl]
      · have hxc : ¬(x = c) := fun hh => hc hh.symm
        simp only [List.isPrefixOf, Bool.and_true, beq_iff_eq, ne_eq,
          List.cons_ne_nil, not_false_eq_true, true_and, hc, if_false,
          List.flatMap_cons, ih rest hlen, hxc]
        simp

theorem escapeBraces_eq_doubleBraces (s : String) : escapeBraces s = doubleBraces s := by
  have h1 : (pyReplace s "\x7b" "\x7b\x7b").data
      = s.data.flatMap (fun x => if x = '\x7b' then ['\x7b', '\x7b'] else [x]) :=
    replaceCore_single '\x7b' ['\x7b', '\x7b'] s.data.length s.data (le_refl _)
  have h2 : (escapeBraces s).data
      = (pyReplace s "\x7b" "\x7b\x7b").data.flatMap
          (fun x => if x = '\x7d' then ['\x7d', '\x7d'] else [x]) :=
    replaceCore_single '\x7d' ['\x7d', '\x7d'] _ _ (le_refl _)
  apply String.ext
  rw [h2, h1, doubleBraces, List.flatMap_assoc]
  apply List.flatMap_congr
  intro x _
  by_cases hb : x = '\x7b'
  · subst hb; simp
  · by_cases hd : x = '\x7d'
    · subst hd; simp
    · simp [hb, hd]

theorem processLineCore_some_key {loads : String → Option Json}
    {m : List (String × Json)} {line : String} {f : String → Email}
    (h : processLineCore loads m line = some f) :
    ∃ k, lineKey? loads line = some k ∧ (lookupStr m k).isSome := by
  simp only [processLineCore, bind, Option.bind_eq_some] at h
  obtain ⟨res, hres, h⟩ := h
  split at h
  case isTrue hcond =>
    simp only [bind, Option.bind_eq_some] at h
    obtain ⟨rdo, hrdo, t, ht, h⟩ := h
    split at h
    case isTrue htt =>
      split at h
      case h_1 s0 =>
        split at h
        case isTrue => exact Option.noConfusion h
        case isFalse hne =>
          cases hl : loads (cleanText s0) with
          | none => rw [hl] at h; simp at h
          | some j =>
          rw [hl] at h
          simp only [Option.bind_eq_some] at h
          obtain ⟨parsed, hparsed, orig, horig, h⟩ := h
          cases hk : extractKey res with
          | str ks =>
            rw [hk] at horig
            simp only [mapGet] at horig
            have hkeytruthy : pyTruthy (extractKey res) = true := by
              have hc := hcond
              simp only [Bool.and_eq_true] at hc
              exact hc.1
            rw [hk] at hkeytruthy
            have hks : ks ≠ "" := by
              simpa [pyTruthy] using hkeytruthy
            refine ⟨ks, ?_, ?_⟩
            · simp only [lineKey?, hres, hk]
              simp [hks]
            · simp [horig]
          | null => rw [hk] at horig; simp [mapGet] at horig
          | bool b => rw [hk] at horig; simp [mapGet] at horig
          | num n => rw [hk] at horig; simp [mapGet] at horig
          | arr xs => rw [hk] at horig; simp [mapGet] at horig
          | obj kvs => rw [hk] at horig; simp [mapGet] at horig
      case h_2 => exact Option.noConfusion h
    case isFalse => exact Option.noConfusion h
  case isFalse => exact Option.noConfusion h

theorem demuxAux_length (loads : String → Option Json) (m : List (String × Json))
    (ids : Nat → String) :
    ∀ (k : Nat) (lines : List String), (demuxAux loads m ids k lines).length
      = lines.countP (fun l => (processLineCore loads m l).isSome) := by
  intro k lines
  induction lines generalizing k with
  | nil => simp [demuxAux]
  | cons l ls ih =>
    rw [demuxAux]
    cases hpl : processLineCore loads m l with
    | some f => simp [List.countP_cons, hpl, ih]
    | none => simp [List.countP_cons, hpl, ih]

theorem demuxAux_skip (loads : String → Option Json) (m : List (String × Json))
    (ids : Nat → String) (bad : String)
    (hbad : processLineCore loads m bad = none) :
    ∀ (k : Nat) (xs ys : List String),
      demuxAux loads m ids k (xs ++ bad :: ys) = demuxAux loads m ids k (xs ++ ys) := by
  intro k xs
  induction xs generalizing k with
  | nil => intro ys; simp [demuxAux, hbad]
  | cons x xs ih =>
    intro ys
    simp only [List.cons_append, demuxAux]
    cases hpl : processLineCore loads m x with
    | some f => simp [ih]
    | none => simp [ih]

theorem demuxAux_mem (loads : String → Option Json) (m : List (String × Json))
    (ids : Nat → String) :
    ∀ (k : Nat) (lines : List String) (e : Email), e ∈ demuxAux loads m ids k lines →
      ∃ l ∈ lines, ∃ f, processLineCore loads m l = some f ∧ ∃ n, e = f (ids n) := by
  intro k lines
  induction lines generalizing k with
  | nil => intro e he; simp [demuxAux] at he
  | cons l ls ih =>
    intro e he
    rw [demuxAux] at he
    cases hpl : processLineCore loads m l with
    | some f =>
      rw [hpl] at he
      rcases List.mem_cons.mp he with he | he
      · exact ⟨l, List.mem_cons_self l ls, f, hpl, k, he⟩
      · obtain ⟨l2, hl2, f2, hf2, n, hn⟩ := ih (k + 1) e he
        exact ⟨l2, List.mem_cons_of_mem _ hl2, f2, hf2, n, hn⟩
    | none =>
      rw [hpl] at he
      obtain ⟨l2, hl2, f2, hf2, n, hn⟩ := ih k e he
      exact ⟨l2, List.mem_cons_of_mem _ hl2, f2, hf2, n, hn⟩

/-- The correlation keys of the lines that both carry a usable key and
hit the request map. -/
def keysHit (loads : String → Option Json) (m : List (String × Json))
    (lines : List String) : List String :=
  (lines.filterMap (lineKey? loads)).filter (fun k => (lookupStr m k).isSome)

theorem demuxAux_length_le_keysHit (loads : String → Option Json)
    (m : List (String × Json)) (ids : Nat → String) :
    ∀ (k : Nat) (lines : List String),
      (demuxAux loads m ids k lines).length ≤ (keysHit loads m lines).length := by
  intro k lines
  induction lines generalizing k with
  | nil => simp [demuxAux, keysHit]
  | cons l ls ih =>
    rw [demuxAux]
    cases hpl : processLineCore loads m l with
    | some f =>
      obtain ⟨key, hkey, hmem⟩ := processLineCore_some_key hpl
      have : keysHit loads m (l :: ls) = key :: keysHit loads m ls := by
        simp [keysHit, List.filterMap_cons, hkey, List.filter_cons, hmem]
      rw [this]
      simpa using ih (k + 1)
    | none =>
      have : (keysHit loads m ls).length ≤ (keysHit loads m (l :: ls)).length := by
        cases hlk : lineKey? loads l with
        | none => simp [keysHit, List.filterMap_cons, hlk]
        | some key =>
          simp only [keysHit, List.filterMap_cons, hlk, List.filter_cons]
          split
          · simp
          · simp
      exact le_trans (ih k) this

theorem lookupStr_isSome_mem {m : List (String × Json)} {k : String}
    (h : (lookupStr m k).isSome) : k ∈ m.map Prod.fst := by
  induction m with
  | nil => simp [lookupStr] at h
  | cons p rest ih =>
    rw [lookupStr] at h
    by_cases hk : p.1 = k
    · simp [hk]
    · rw [if_neg hk] at h
      simp [ih h]

theorem nodup_subset_length {l L : List String} (hn : l.Nodup)
    (hsub : ∀ x ∈ l, x ∈ L) : l.length ≤ L.length := by
  calc l.length = l.toFinset.card := (List.toFinset_card_of_nodup hn).symm
  _ ≤ L.toFinset.card := Finset.card_le_card (fun x hx =>
      List.mem_toFinset.mpr (hsub x (List.mem_toFinset.mp hx)))
  _ ≤ L.length := List.toFinset_card_le L

theorem demux_length_le_of_nodup (loads : String → Option Json)
    (m : List (String × Json)) (ids : Nat → String) (lines : List String)
    (hnd : (lines.filterMap (lineKey? loads)).Nodup) :
    (demux loads m ids lines).length ≤ m.length := by
  have h1 := demuxAux_length_le_keysHit loads m ids 0 lines
  have h2 : (keysHit loads m lines).Nodup := List.Nodup.filter _ hnd
  have h3 : ∀ x ∈ keysHit loads m lines, x ∈ m.map Prod.fst := by
    intro x hx
    have := List.of_mem_filter hx
    exact lookupStr_isSome_mem (by simpa using this)
  have h4 := nodup_subset_length h2 h3
  rw [List.length_map] at h4
  exact le_trans h1 (by simpa [demux] using h4)

theorem buildInput?_key {i : Nat} {e : Json} {inp : String × String}
    (h : buildInput? i e = some inp) : inp.1 = "req-" ++ Nat.repr i := by
  simp only [buildInput?, bind, Option.bind_eq_some] at h
  obtain ⟨b, hb, ct, hct, st, hst, h⟩ := h
  cases h
  rfl

theorem buildGo_keys : ∀ (i : Nat) (es : List Json)
    (ins : List (String × String)) (m : List (String × Json)),
    buildGo i es = some (ins, m) →
    m.map Prod.fst = (List.range' i es.length).map (fun j => "req-" ++ Nat.repr j) := by
  intro i es
  induction es generalizing i with
  | nil =>
    intro ins m h
    simp only [buildGo] at h
    cases h
    simp
  | cons e es ih =>
    intro ins m h
    simp only [buildGo, bind, Option.bind_eq_some] at h
    obtain ⟨inp, hinp, ⟨ins2, m2⟩, hgo, h⟩ := h
    cases h
    simp only [List.length_cons, List.range'_succ, List.map_cons, List.map_cons]
    rw [buildInput?_key hinp]
    simp [ih (i + 1) _ _ hgo]

theorem buildGo_lengths : ∀ (i : Nat) (es : List Json)
    (ins : List (String × String)) (m : List (String × Json)),
    buildGo i es = some (ins, m) → m.length = es.length ∧ ins.length = es.length := by
  intro i es
  induction es generalizing i with
  | nil =>
    intro ins m h
    simp only [buildGo] at h
    cases h
    simp
  | cons e es ih =>
    intro ins m h
    simp only [buildGo, bind, Option.bind_eq_some] at h
    obtain ⟨inp, hinp, ⟨ins2, m2⟩, hgo, h⟩ := h
    cases h
    have := ih (i + 1) _ _ hgo
    simp [this.1, this.2]

theorem buildGo_keys_nodup {i : Nat} {es : List Json}
    {ins : List (String × String)} {m : List (String × Json)}
    (h : buildGo i es = some (ins, m)) : (m.map Prod.fst).Nodup := by
  rw [buildGo_keys i es ins m h]
  refine List.Nodup.map ?_ (List.nodup_range' i es.length)
  intro a b hab
  have : Nat.repr a = Nat.repr b := by
    have := congrArg String.data hab
    simp only [String.data_append] at this
    have := List.append_cancel_left this
    exact String.ext this
  exact Nat_repr_injective this

theorem pyOptStr_optStrJson (o : Option String) : pyOptStr? (optStrJson o) = some o := by
  cases o <;> rfl

theorem Todo_roundtrip (t : Todo) : Todo.ofJson (Todo.toJson t) = some t := by
  obtain ⟨title, notes, due_date, priority, isCompleted⟩ := t
  cases notes <;> cases due_date <;> rfl

theorem Event_roundtrip (e : Event) : Event.ofJson (Event.toJson e) = some e := by
  obtain ⟨title, notes, location, start_date, end_date, all_day⟩ := e
  cases notes <;> cases location <;> cases start_date <;> cases end_date <;> rfl

theorem optMapM_Todo_roundtrip (ts : List Todo) :
    optMapM Todo.ofJson (ts.map Todo.toJson) = some ts := by
  induction ts with
  | nil => rfl
  | cons t ts ih => simp [optMapM, Todo_roundtrip, ih]

theorem optMapM_Event_roundtrip (es : List Event) :
    optMapM Event.ofJson (es.map Event.toJson) = some es := by
  induction es with
  | nil => rfl
  | cons e es ih => simp [optMapM, Event_roundtrip, ih]

theorem Email_roundtrip (e : Email) : Email.ofJson (Email.toJson e) = some e := by
  obtain ⟨id, from_addr, subject, date, preview, body_html, summary, category, todos, events⟩ := e
  simp only [Email.toJson, Email.ofJson, Json.getD, Json.find?, lookupStr]
  simp +decide only [if_true, if_false]
  simp [pyOptStr_optStrJson, pydList, optMapM_Todo_roundtrip, optMapM_Event_roundtrip,
    pyStr?, Option.getD, bind]

theorem save_load_roundtrip (emails : List Email) :
    load_processed_emails (some (save_processed_emails emails)) = .ok emails := by
  unfold load_processed_emails save_processed_emails
  have hall : optMapM Email.ofJson (emails.map Email.toJson) = some emails := by
    induction emails with
    | nil => rfl
    | cons e es ih => simp [optMapM, Email_roundtrip, ih]
  cases hmap : emails.map Email.toJson with
  | nil =>
    have : emails = [] := by
      cases emails with
      | nil => rfl
      | cons x xs => simp at hmap
    simp [this, optMapM]
  | cons d ds =>
    rw [← hmap]
    simp [hall]



/-- Invariant maintained by every atomic step: at most one live pipeline
thread exists, and while one exists the shared status is `fetching` or
`processing`. -/
def SysInv (s : SysState) : Prop :=
  s.pipes.length ≤ 1 ∧
  (s.pipes ≠ [] → s.statusRec.status = "fetching" ∨ s.statusRec.status = "processing")

theorem sysInv_init : SysInv initState := by
  constructor
  · simp [initState]
  · intro h
    simp [initState] at h

theorem sysInv_step {s t : SysState} (hs : SysInv s) (h : SysStep s t) : SysInv t := by
  cases h with
  | requestStarted now hstart =>
    have hidle : ¬(s.statusRec.status = "fetching" ∨ s.statusRec.status = "processing") := by
      intro hcon
      rw [refresh_emails, if_pos hcon] at hstart
      simp at hstart
    have hempty : s.pipes = [] := by
      by_contra hne
      exact hidle (hs.2 hne)
    rw [refresh_emails, if_neg hidle]
    constructor
    · simp [hempty]
    · intro _
      left
      rfl
  | requestRejected now hrej => exact hs
  | bgFetching now l r hp =>
    have hlen := hs.1
    rw [hp] at hlen
    simp only [List.length_append, List.length_cons] at hlen
    have hl : l = [] := by
      cases l with
      | nil => rfl
      | cons a as => simp at hlen; omega
    have hr : r = [] := by
      cases r with
      | nil => rfl
      | cons a as => rw [hl] at hlen; simp at hlen
    subst hl; subst hr
    constructor
    · simp
    · intro _
      left
      rfl
  | bgProcessing now msg l r hp =>
    have hlen := hs.1
    rw [hp] at hlen
    simp only [List.length_append, List.length_cons] at hlen
    have hl : l = [] := by
      cases l with
      | nil => rfl
      | cons a as => simp at hlen; omega
    have hr : r = [] := by
      cases r with
      | nil => rfl
      | cons a as => rw [hl] at hlen; simp at hlen
    subst hl; subst hr
    constructor
    · simp
    · intro _
      right
      rfl
  | bgFetchError now msg l r hp =>
    have hlen := hs.1
    rw [hp] at hlen
    simp only [List.length_append, List.length_cons] at hlen
    constructor
    · simp only [List.length_append]
      omega
    · intro hne
      exfalso
      have hl : l = [] := by
        cases l with
        | nil => rfl
        | cons a as => simp at hlen; omega
      have hr : r = [] := by
        cases r with
        | nil => rfl
        | cons a as => rw [hl] at hlen; simp at hlen
      rw [hl, hr] at hne
      simp at hne
  | bgFinish now st msg c l r hst hp =>
    have hlen := hs.1
    rw [hp] at hlen
    simp only [List.length_append, List.length_cons] at hlen
    constructor
    · simp only [List.length_append]
      omega
    · intro hne
      exfalso
      have hl : l = [] := by
        cases l with
        | nil => rfl
        | cons a as => simp at hlen; omega
      have hr : r = [] := by
        cases r with
        | nil => rfl
        | cons a as => rw [hl] at hlen; simp at hlen
      rw [hl, hr] at hne
      simp at hne

theorem reach_sysInv {s : SysState} (h : Reach s) : SysInv s := by
  induction h with
  | init => exact sysInv_init
  | step _ hstep ih => exact sysInv_step ih hstep


/-! ### Concrete instances used by counterexamples and witnesses -/

/-- A minimal raw email (a dict with only a subject). -/
def cexEmail : Json := .obj [("subject", .str "Hi")]

/-- A well-formed output line carrying correlation key `req-0` and one
non-thought part whose text is `T`. -/
def cexLine : Json :=
  .obj [("key", .str "req-0"),
        ("response", .obj [("candidates", .arr [
          .obj [("content", .obj [("parts", .arr [
            .obj [("text", .str "T")]])])]])])]

/-- The extraction JSON the model answered for `cexLine`. -/
def cexParsed : Json := .obj [("summary", .str "ok")]

/-- A concrete external json parser: the output line `L` parses to
`cexLine`, the answer text `T` parses to `cexParsed`, everything else
fails to parse. -/
def cexLoads : String → Option Json := fun s =>
  if s = "L" then some cexLine else if s = "T" then some cexParsed else none

/-- A concrete uuid stream. -/
def cexIds : Nat → String := fun n => "u" ++ Nat.repr n

/-- The request list built from the one-email batch `[cexEmail]`. -/
def cexIns : List (String × String) :=
  [("req-" ++ Nat.repr 0, renderPrompt (escapeBraces "Hi") (escapeBraces ""))]

/-- The correlation map built from the one-email batch `[cexEmail]`. -/
def cexMap : List (String × Json) := [("req-" ++ Nat.repr 0, cexEmail)]

/-- A refresh environment whose fetch succeeds with one email and whose
batch job ends in the `JOB_STATE_FAILED` terminal state. -/
def cexEnvFailed : RefreshEnv :=
  { fetchResult := .ok [cexEmail], job := .failed, loads := cexLoads,
    ids := cexIds, saveExn := none, now := "t" }

/-- A refresh environment whose fetch returns zero messages. -/
def cexEnvEmpty : RefreshEnv :=
  { fetchResult := .ok [], job := .succeeded none, loads := cexLoads,
    ids := cexIds, saveExn := none, now := "t" }

/-! ### Claim theorems -/

/-- C10: when the persisted snapshot file does not exist,
`load_processed_emails` returns the empty collection rather than raising,
so `GET /processed-emails` and `GET /emails` both return the empty list
before the first successful refresh. -/
theorem C10_missing_file_loads_empty :
    load_processed_emails none = .ok [] ∧
    get_processed_emails none = .ok [] ∧
    get_emails none = .ok [] :=
  ⟨rfl, rfl, rfl⟩

/-- C8: saving a ProcessedEmail collection and then loading it yields a
collection equal field-for-field to the original, for every collection
(including the empty, singleton and many-record cases); the textual
`json.dumps`/`json.load` round-trip of the external json library is
modelled as the identity on JSON documents. -/
theorem C8_save_load_roundtrip (emails : List Email) :
    load_processed_emails (some (save_processed_emails emails)) = .ok emails :=
  save_load_roundtrip emails

/-- C3 counterexample: the events comprehension of backend.py line 485
promotes an extraction entry that has a title but no start date —
`Event(**e)` succeeds with `start_date = None` — so an entry lacking a
start timestamp IS materialized as a calendar Event, contradicting the
claim. -/
theorem C3_counterexample :
    pyIterList Event.ofJson (.arr [.obj [("title", .str "Party")]])
      = some [{ title := "Party", notes := none, location := some "TBD",
                start_date := none, end_date := none, all_day := false }] := rfl

/-- C3 (amended): an Event is materialized exactly when its entry passes
pydantic validation, which requires a title but NOT a start timestamp: an
entry with only a title is promoted with a null start date, an entry with
title and start date is promoted, and an entry without a title is never
promoted (its validation failure drops the whole output line). -/
theorem C3_event_materialization (t s : String) :
    pyIterList Event.ofJson (.arr [.obj [("title", .str t)]])
        = some [{ title := t, notes := none, location := some "TBD",
                  start_date := none, end_date := none, all_day := false }] ∧
    pyIterList Event.ofJson (.arr [.obj [("title", .str t), ("start_date", .str s)]])
        = some [{ title := t, notes := none, location := some "TBD",
                  start_date := some s, end_date := none, all_day := false }] ∧
    (∀ kvs, lookupStr kvs "title" = none → Event.ofJson (.obj kvs) = none) := by
  refine ⟨rfl, rfl, ?_⟩
  intro kvs h
  simp [Event.ofJson, Json.getD, Json.find?, h, pyStr?, bind]

/-- C3 witness: the amended theorem evaluated at a concrete entry. -/
theorem C3_event_materialization_witness :
    pyIterList Event.ofJson (.arr [.obj [("title", .str "P")]])
        = some [{ title := "P", notes := none, location := some "TBD",
                  start_date := none, end_date := none, all_day := false }] ∧
    Event.ofJson (.obj []) = none :=
  ⟨(C3_event_materialization "P" "S").1,
   (C3_event_materialization "P" "S").2.2 [] rfl⟩

/-- C7: an empty input batch short-circuits to an empty result for every
batch-job environment (so no job is ever submitted for it), and a refresh
cycle whose fetch returns zero messages completes with status `completed`
and count 0, persisting the empty collection. -/
theorem C7_empty_batch (env : RefreshEnv)
    (hfetch : env.fetchResult = .ok [])
    (hsave : env.saveExn = none) :
    process_with_gemini_batch env.loads env.ids env.job [] = .ok [] ∧
    (background_email_refresh env).finalStatus.status = "completed" ∧
    (background_email_refresh env).finalStatus.count = 0 ∧
    (background_email_refresh env).saved = some [] := by
  refine ⟨rfl, ?_, ?_, ?_⟩ <;>
    simp [background_email_refresh, hfetch, hsave, process_with_gemini_batch,
      update_batch_status]

/-- C7 witness: the claim theorem evaluated at a concrete environment. -/
theorem C7_empty_batch_witness :
    process_with_gemini_batch cexEnvEmpty.loads cexEnvEmpty.ids cexEnvEmpty.job []
        = .ok [] ∧
    (background_email_refresh cexEnvEmpty).finalStatus.status = "completed" ∧
    (background_email_refresh cexEnvEmpty).finalStatus.count = 0 ∧
    (background_email_refresh cexEnvEmpty).saved = some [] :=
  C7_empty_batch cexEnvEmpty rfl rfl


/-- C1 counterexample: a concrete cycle whose fetch succeeds with one
email and whose batch job ends `JOB_STATE_FAILED` finishes with status
`completed` (not `error`) and persists the empty collection: the raised
job-failure exception is swallowed by the `except` handler at backend.py
line 495, refuting the claimed `error` transition. -/
theorem C1_counterexample :
    (background_email_refresh cexEnvFailed).finalStatus.status = "completed" ∧
    ¬((background_email_refresh cexEnvFailed).finalStatus.status = "error") ∧
    (background_email_refresh cexEnvFailed).saved = some [] := by
  exact ⟨rfl, by decide, by decide⟩

/-- C1 (amended): when job submission fails or the batch job reaches a
failed or cancelled terminal state, the refresh cycle yields zero
ProcessedEmail results and no demultiplexing is attempted; however the
raised exception is caught inside the batch processor (`return []`), so
the cycle persists an empty collection and the RefreshStatus transitions
to `completed` with count 0 — not to `error`. -/
theorem C1_job_failure_completes_empty (env : RefreshEnv) (raw : List Json)
    (hfetch : env.fetchResult = .ok raw)
    (hbuild : (buildInputsAndMap? raw).isSome = true)
    (hjob : env.job = .submitFail ∨ env.job = .failed ∨ env.job = .cancelled)
    (hsave : env.saveExn = none) :
    process_with_gemini_batch env.loads env.ids env.job raw = .ok [] ∧
    (background_email_refresh env).saved = some [] ∧
    (background_email_refresh env).finalStatus.status = "completed" ∧
    (background_email_refresh env).finalStatus.count = 0 := by
  have hproc : process_with_gemini_batch env.loads env.ids env.job raw = .ok [] := by
    cases raw with
    | nil => rfl
    | cons r rs =>
      obtain ⟨p, hp⟩ := Option.isSome_iff_exists.mp hbuild
      obtain ⟨ins, m⟩ := p
      rcases hjob with hj | hj | hj <;>
        simp [process_with_gemini_batch, hp, hj]
  refine ⟨hproc, ?_, ?_, ?_⟩ <;>
    simp [background_email_refresh, hfetch, hproc, hsave, update_batch_status]

/-- C1 witness: the amended theorem evaluated at the concrete failed-job
environment. -/
theorem C1_job_failure_witness :
    process_with_gemini_batch cexEnvFailed.loads cexEnvFailed.ids cexEnvFailed.job
        [cexEmail] = .ok [] ∧
    (background_email_refresh cexEnvFailed).saved = some [] ∧
    (background_email_refresh cexEnvFailed).finalStatus.status = "completed" ∧
    (background_email_refresh cexEnvFailed).finalStatus.count = 0 :=
  C1_job_failure_completes_empty cexEnvFailed [cexEmail] rfl rfl
    (Or.inr (Or.inl rfl)) rfl

/-- C2 counterexample: with a batch of size N = 1, an output stream that
repeats the valid line `L` (correlation key `req-0`) twice makes
demultiplexing produce 2 records — the code never deduplicates
correlation keys, so the claimed `at most N` bound over EVERY output
stream fails. -/
theorem C2_counterexample :
    Except.map List.length
        (process_with_gemini_batch cexLoads cexIds
          (.succeeded (some ["L", "L"])) [cexEmail]) = .ok 2 ∧
    ¬(2 ≤ ([cexEmail] : List Json).length) :=
  ⟨rfl, by decide⟩

/-- C2 (amended): every record produced by demultiplexing arises from an
output line whose correlation key is present in the request map built at
submission time (no fabricated records), and the record count is bounded
by the batch size N provided every correlation key occurs on at most one
output line (the provider contract of one response line per request);
without that proviso the bound fails, as the counterexample shows. -/
theorem C2_demux_bounds (loads : String → Option Json) (ids : Nat → String)
    (emails : List Json) (lines : List String)
    (ins : List (String × String)) (m : List (String × Json))
    (hbuild : buildInputsAndMap? emails = some (ins, m))
    (out : List Email)
    (hout : process_with_gemini_batch loads ids (.succeeded (some lines)) emails
              = .ok out) :
    ((lines.filterMap (lineKey? loads)).Nodup → out.length ≤ emails.length) ∧
    (∀ e ∈ out, ∃ l ∈ lines, ∃ f, processLineCore loads m l = some f ∧
       (∃ n, e = f (ids n)) ∧ ∃ k, lineKey? loads l = some k ∧ k ∈ m.map Prod.fst) := by
  cases emails with
  | nil =>
    simp only [process_with_gemini_batch] at hout
    cases hout
    constructor
    · intro _
      simp
    · intro e he
      simp at he
  | cons r rs =>
    simp only [process_with_gemini_batch, hbuild] at hout
    cases hout
    constructor
    · intro hnd
      have h1 := demux_length_le_of_nodup loads m ids lines hnd
      have h2 := (buildGo_lengths 0 (r :: rs) ins m hbuild).1
      rw [← h2]
      exact h1
    · intro e he
      obtain ⟨l, hl, f, hf, n, hn⟩ := demuxAux_mem loads m ids 0 lines e he
      obtain ⟨k, hk, hking⟩ := processLineCore_some_key hf
      exact ⟨l, hl, f, hf, ⟨n, hn⟩, k, hk, lookupStr_isSome_mem hking⟩

/-- C2 witness: the amended bound evaluated on a concrete one-request
batch and a one-line output stream. -/
theorem C2_demux_bounds_witness :
    (demux cexLoads cexMap cexIds ["L"]).length ≤ ([cexEmail] : List Json).length :=
  (C2_demux_bounds cexLoads cexIds [cexEmail] ["L"] cexIns cexMap rfl
     (demux cexLoads cexMap cexIds ["L"]) rfl).1 (by decide)

/-- C5: output lines are processed independently — a line whose
structural parse fails is skipped, any skipped line leaves the rest of
the batch untouched (removing it from the stream does not change the
result at all), and the number of produced records always equals the
number of valid lines, so a corrupt line never reduces that count. -/
theorem C5_line_fault_isolation (loads : String → Option Json)
    (m : List (String × Json)) (ids : Nat → String) (k : Nat)
    (bad : String) (xs ys lines : List String) :
    (loads bad = none → processLineCore loads m bad = none) ∧
    (processLineCore loads m bad = none →
      demuxAux loads m ids k (xs ++ bad :: ys) = demuxAux loads m ids k (xs ++ ys)) ∧
    (demuxAux loads m ids k lines).length
      = lines.countP (fun l => (processLineCore loads m l).isSome) := by
  refine ⟨?_, fun hbad => demuxAux_skip loads m ids bad hbad k xs ys,
    demuxAux_length loads m ids k lines⟩
  intro hl
  simp only [processLineCore, structParse, hl, bind]
  split
  · rfl
  · rfl

/-- C5 witness: the fault-isolation theorem evaluated on a concrete
stream with an unparsable line `X` between two valid lines. -/
theorem C5_line_fault_isolation_witness :
    processLineCore cexLoads cexMap "X" = none ∧
    demuxAux cexLoads cexMap cexIds 0 (["L"] ++ "X" :: ["L"])
      = demuxAux cexLoads cexMap cexIds 0 (["L"] ++ ["L"]) ∧
    (demuxAux cexLoads cexMap cexIds 0 ["L", "X"]).length
      = ["L", "X"].countP (fun l => (processLineCore cexLoads cexMap l).isSome) := by
  have h := C5_line_fault_isolation cexLoads cexMap cexIds 0 "X" ["L"] ["L"] ["L", "X"]
  exact ⟨h.1 rfl, h.2.1 (h.1 rfl), h.2.2⟩

/-- C6 counterexample: correlation keys are the fixed sequence `req-i` in
every batch, so the key `req-0` of a later batch collides with the key
`req-0` of the prior, already-completed batch — the no-cross-batch
collision part of the claim fails. -/
theorem C6_counterexample :
    (buildInputsAndMap? [cexEmail]).map (fun p => p.2.map Prod.fst)
      = some ["req-0"] ∧
    (buildInputsAndMap? [cexEmail, cexEmail]).map (fun p => p.2.map Prod.fst)
      = some ["req-0", "req-1"] ∧
    "req-0" ∈ (["req-0"] : List String) ∧
    "req-0" ∈ (["req-0", "req-1"] : List String) :=
  ⟨rfl, rfl, by decide, by decide⟩

/-- C6 (amended): within one batch submission every correlation key is
unique; however the keys are the deterministic sequence
`req-0 … req-(N-1)` in every batch, so keys ARE reused across successive
batches (each submission rebuilds its own local request map, so the reuse
cannot misroute responses within a single job). -/
theorem C6_keys_unique_within_batch (emails : List Json)
    (ins : List (String × String)) (m : List (String × Json))
    (hbuild : buildInputsAndMap? emails = some (ins, m)) :
    (m.map Prod.fst).Nodup ∧
    m.map Prod.fst
      = (List.range emails.length).map (fun j => "req-" ++ Nat.repr j) :=
  ⟨buildGo_keys_nodup hbuild,
   by rw [buildGo_keys 0 emails ins m hbuild, List.range_eq_range']⟩

/-- C6 witness: key uniqueness evaluated on a concrete two-email batch. -/
theorem C6_keys_unique_witness :
    (([("req-" ++ Nat.repr 0, cexEmail), ("req-" ++ Nat.repr 1, cexEmail)].map
        (Prod.fst (α := String) (β := Json))).Nodup) :=
  (C6_keys_unique_within_batch [cexEmail, cexEmail]
    [("req-" ++ Nat.repr 0, renderPrompt (escapeBraces "Hi") (escapeBraces "")),
     ("req-" ++ Nat.repr 1, renderPrompt (escapeBraces "Hi") (escapeBraces ""))]
    [("req-" ++ Nat.repr 0, cexEmail), ("req-" ++ Nat.repr 1, cexEmail)] rfl).1


/-- A raw email with braces in its subject and body content, for the C9
witness. -/
def cexC9Email : Json :=
  .obj [("subject", .str "a\x7bb"),
        ("body", .obj [("content", .str "c\x7dd")]),
        ("bodyPreview", .str "p")]

/-- C9: for every raw message whose subject, body content and preview are
strings, the Prompt Builder doubles every curly-brace character of the
subject and of the chosen email text before template substitution, and
uses the body content as the email text, falling back to the preview
exactly when the body content is the empty string.  (`doubleBraces` is
the character-wise doubling stated by the spec; the theorem identifies it
with the `str.replace` chain the source performs.) -/
theorem C9_prompt_escaping (email : Json) (i : Nat)
    (subj content preview : String) (bodyKvs : List (String × Json))
    (hbody : email.getD "body" (.obj []) = .obj bodyKvs)
    (hcontent : (Json.obj bodyKvs).getD "content" (.str "") = .str content)
    (hprev : email.getD "bodyPreview" (.str "") = .str preview)
    (hsubj : email.getD "subject" (.str "") = .str subj) :
    buildInput? i email
      = some ("req-" ++ Nat.repr i,
          renderPrompt (doubleBraces subj)
            (doubleBraces (if content = "" then preview else content))) := by
  by_cases hc : content = ""
  · subst hc
    simp [buildInput?, hbody, hcontent, hprev, hsubj, asObj, asStr, pyTruthy, bind,
      escapeBraces_eq_doubleBraces]
  · simp [buildInput?, hbody, hcontent, hprev, hsubj, asObj, asStr, pyTruthy, hc, bind,
      escapeBraces_eq_doubleBraces]

/-- C9 witness: the escaping contract evaluated on a concrete message
with braces in subject and body. -/
theorem C9_prompt_escaping_witness :
    buildInput? 0 cexC9Email
      = some ("req-" ++ Nat.repr 0,
          renderPrompt (doubleBraces "a\x7bb")
            (doubleBraces (if ("c\x7dd" : String) = "" then "p" else "c\x7dd"))) :=
  C9_prompt_escaping cexC9Email 0 "a\x7bb" "c\x7dd" "p"
    [("content", .str "c\x7dd")] rfl rfl rfl rfl

/-- The state reached from process start by one accepted refresh request:
status `fetching`, one live pipeline. -/
def sysState1 : SysState :=
  ⟨update_batch_status "fetching" "Starting email refresh..." 0 "t0", [.created]⟩

/-- C4: in the atomic-step interleaving model of §5, a
`POST /refresh-emails` request arriving while the status is `fetching` or
`processing` receives `already_running` and starts no background
pipeline, and every reachable state carries at most one live pipeline
(single-flight invariant). -/
theorem C4_single_flight (s : SysState) (hreach : Reach s) (now : String) :
    ((s.statusRec.status = "fetching" ∨ s.statusRec.status = "processing") →
        (refresh_emails s.statusRec now).1.status = "already_running" ∧
        (refresh_emails s.statusRec now).2 = false) ∧
    s.pipes.length ≤ 1 := by
  refine ⟨fun hc => ?_, (reach_sysInv hreach).1⟩
  rw [refresh_emails, if_pos hc]
  exact ⟨rfl, rfl⟩

/-- C4 witness: the single-flight theorem evaluated at the concrete state
reached after one accepted request. -/
theorem C4_single_flight_witness :
    (refresh_emails sysState1.statusRec "t1").1.status = "already_running" ∧
    (refresh_emails sysState1.statusRec "t1").2 = false ∧
    sysState1.pipes.length ≤ 1 := by
  have hreach : Reach sysState1 :=
    Reach.step Reach.init (SysStep.requestStarted initState "t0" (by decide))
  have h := C4_single_flight sysState1 hreach "t1"
  exact ⟨(h.1 (Or.inl rfl)).1, (h.1 (Or.inl rfl)).2, h.2⟩

end Backend
